import Mathlib

/-
  Verification of the StockScreener repository's analysis and data-service
  routines against its natural-language specification.

  The TypeScript sources are shallowly embedded:
  * JavaScript numbers are modelled as `JSNum`, rationals extended with
    `nan` and signed infinities, so that the `0/0` cases the code can hit
    (empty slices) are represented faithfully.
  * Bar data (`OHLC`) carries plain rationals for its price fields; the
    analysis routines only ever compare, add and subtract them, and the
    claims about them assume well-formed bars, so no `nan` can arise there.
  * Fallible code (`detectOrderBlocks` on an empty series dereferences
    `data[data.length - 1]`, `calculateFundamentalScore` likewise) returns
    `Option`.
-/

/-- A JavaScript number: a finite rational, `nan`, or a signed infinity. -/
inductive JSNum where
  | num (q : ℚ)
  | nan
  | posInf
  | negInf
deriving DecidableEq

namespace JSNum

/-- JavaScript `<`: any comparison involving `NaN` is false. -/
def lt : JSNum → JSNum → Bool
  | num a, num b => decide (a < b)
  | num _, posInf => true
  | negInf, num _ => true
  | negInf, posInf => true
  | _, _ => false

/-- JavaScript addition. -/
def add : JSNum → JSNum → JSNum
  | num a, num b => num (a + b)
  | nan, _ => nan
  | _, nan => nan
  | posInf, negInf => nan
  | negInf, posInf => nan
  | posInf, _ => posInf
  | _, posInf => posInf
  | negInf, _ => negInf
  | _, negInf => negInf

/-- JavaScript subtraction. -/
def sub : JSNum → JSNum → JSNum
  | num a, num b => num (a - b)
  | nan, _ => nan
  | _, nan => nan
  | posInf, posInf => nan
  | negInf, negInf => nan
  | posInf, _ => posInf
  | negInf, _ => negInf
  | num _, posInf => negInf
  | num _, negInf => posInf

/-- JavaScript multiplication (`±∞ * 0 = NaN`). -/
def mul : JSNum → JSNum → JSNum
  | num a, num b => num (a * b)
  | nan, _ => nan
  | _, nan => nan
  | posInf, posInf => posInf
  | posInf, negInf => negInf
  | negInf, posInf => negInf
  | negInf, negInf => posInf
  | posInf, num b => if b = 0 then nan else if 0 < b then posInf else negInf
  | num a, posInf => if a = 0 then nan else if 0 < a then posInf else negInf
  | negInf, num b => if b = 0 then nan else if 0 < b then negInf else posInf
  | num a, negInf => if a = 0 then nan else if 0 < a then negInf else posInf

/-- JavaScript division (`0/0 = NaN`, `x/0 = ±∞` for nonzero `x`;
    negative zero is not modelled). -/
def div : JSNum → JSNum → JSNum
  | num a, num b =>
      if b = 0 then (if a = 0 then nan else if 0 < a then posInf else negInf)
      else num (a / b)
  | nan, _ => nan
  | _, nan => nan
  | posInf, posInf => nan
  | posInf, negInf => nan
  | negInf, posInf => nan
  | negInf, negInf => nan
  | num _, posInf => num 0
  | num _, negInf => num 0
  | posInf, num b => if b < 0 then negInf else posInf
  | negInf, num b => if b < 0 then posInf else negInf

/-- JavaScript `Math.max`: `NaN` if either argument is `NaN`. -/
def max (a b : JSNum) : JSNum :=
  if a = nan ∨ b = nan then nan else if lt a b then b else a

/-- JavaScript `Math.min`: `NaN` if either argument is `NaN`. -/
def min (a b : JSNum) : JSNum :=
  if a = nan ∨ b = nan then nan else if lt b a then b else a

/-- JavaScript truthiness of a number: `0` and `NaN` are falsy. -/
def truthy : JSNum → Bool
  | num q => decide (q ≠ 0)
  | nan => false
  | posInf => true
  | negInf => true

/-- JavaScript `x || y` on numbers. -/
def orElse (a b : JSNum) : JSNum := if truthy a then a else b

/-- JavaScript `Math.abs`. -/
def abs : JSNum → JSNum
  | num q => num |q|
  | nan => nan
  | posInf => posInf
  | negInf => posInf

/-- JavaScript `Math.round`: `⌊x + 1/2⌋` (halves round towards `+∞`). -/
def round : JSNum → JSNum
  | num q => num (⌊q + 1/2⌋ : ℤ)
  | nan => nan
  | posInf => posInf
  | negInf => negInf

end JSNum

/-- One bar of the series (`OHLC` in `types.ts`).  Dates only ever get
    compared for equality (`findIndex` in `detectOrderBlocks`), so they are
    modelled as naturals. -/
structure OHLC where
  date : ℕ
  «open» : ℚ
  high : ℚ
  low : ℚ
  close : ℚ
  volume : ℚ
deriving DecidableEq

/-- Direction of an order block. -/
inductive OBType where
  | bullish
  | bearish
deriving DecidableEq

/-- `OrderBlock` in `types.ts`. -/
structure OrderBlock where
  type : OBType
  top : ℚ
  bottom : ℚ
  startTime : ℕ
  isMitigated : Bool
  strength : ℚ
deriving DecidableEq

/-- `VCPStatus` in `types.ts`; the three numeric fields keep the full
    JavaScript number semantics because the code can produce `NaN` there. -/
structure VCPStatus where
  isVCP : Bool
  contractionRatio : JSNum
  volumeRatio : JSNum
  tightnessScore : JSNum
deriving DecidableEq

/-- Trend label of an analysis. -/
inductive Trend where
  | bullish
  | bearish
  | neutral
deriving DecidableEq

/-- `StrategyID` in `types.ts`. -/
inductive StrategyID where
  | ob_detection
  | vcp_breakout
deriving DecidableEq

/-- The fields of `Partial<StockAnalysis>` that `calculateStrategyScore`
    reads; every one of them may be absent. -/
structure StockAnalysisP where
  orderBlocks : Option (List OrderBlock)
  vcp : Option VCPStatus
  trend : Option Trend

/- ------------------------------------------------------------------ -/
/- `src/utils/storageService.ts` (analysis routines)                   -/
/- ------------------------------------------------------------------ -/

/-- The two pushes the detection loop of `detectOrderBlocks` may make at
    index `i` (lines 105-136): a bullish block on a swing low followed by a
    strong up move, a bearish block on a swing high followed by a strong
    down move. -/
def obCandidates (data : List OHLC) (i : ℕ) : List OrderBlock :=
  match data.get? i, data.get? (i - 1), data.get? (i + 1), data.get? (i + 3) with
  | some current, some prev, some next, some fwd =>
      (if current.low < prev.low ∧ current.low < next.low ∧
          fwd.close > current.high * 1.015 then
        [{ type := .bullish,
           top := Max.max current.«open» current.close,
           bottom := current.low,
           startTime := current.date,
           isMitigated := false,
           strength := (fwd.close - current.low) / current.low * 100 }]
      else []) ++
      (if current.high > prev.high ∧ current.high > next.high ∧
          fwd.close < current.low * 0.985 then
        [{ type := .bearish,
           top := current.high,
           bottom := Min.min current.«open» current.close,
           startTime := current.date,
           isMitigated := false,
           strength := (current.high - fwd.close) / current.high * 100 }]
      else [])
  | _, _, _, _ => []

/-- The block list accumulated by the loop `for (i = 20; i < data.length - 5; i++)`. -/
def rawOrderBlocks (data : List OHLC) : List OrderBlock :=
  ((List.range data.length).filter
      (fun i => decide (20 ≤ i) && decide (i + 5 < data.length))).flatMap
    (obCandidates data)

/-- The per-bar mitigation test of the final scan (lines 144-145): a bar
    mitigates a bullish block when its low is strictly below the bottom, a
    bearish block when its high is strictly above the top. -/
def breachB (ob : OrderBlock) (d : OHLC) : Bool :=
  match ob.type with
  | .bullish => decide (d.low < ob.bottom)
  | .bearish => decide (d.high > ob.top)

/-- `data.findIndex(d => d.date === ob.startTime) + 1`: JavaScript
    `findIndex` yields `-1` when no bar matches, so the scan then starts
    at index `0`. -/
def mitigationStart (data : List OHLC) (ob : OrderBlock) : ℕ :=
  match data.findIdx? (fun d => d.date == ob.startTime) with
  | some i => i + 1
  | none => 0

/-- The mitigation flag computed for one block (lines 141-146). -/
def mitigatedFlag (data : List OHLC) (ob : OrderBlock) : Bool :=
  (data.drop (mitigationStart data ob)).any (breachB ob)

/-- `detectOrderBlocks` (lines 100-149).  Line 139 dereferences
    `data[data.length - 1].close`, which throws on an empty series, hence
    the `Option`. -/
def detectOrderBlocks (data : List OHLC) : Option (List OrderBlock) :=
  if data.isEmpty then none
  else some ((rawOrderBlocks data).map
    (fun ob => { ob with isMitigated := mitigatedFlag data ob }))

/-- `data.slice(-20)`: the last (at most) 20 bars. -/
def recentWindow (data : List OHLC) : List OHLC :=
  data.drop (data.length - 20)

/-- `data.slice(-40, -20)`: the bars between positions
    `max(length-40, 0)` and `max(length-20, 0)`. -/
def olderWindow (data : List OHLC) : List OHLC :=
  (data.take (data.length - 20)).drop (data.length - 40)

/-- The sum the `reduce` of `getAvgRange` computes. -/
def sumRange (slice : List OHLC) : ℚ :=
  slice.foldl (fun acc d => acc + (d.high - d.low)) 0

/-- The sum the `reduce` of `getAvgVol` (and of the volume average in
    `calculateFundamentalScore`) computes. -/
def sumVol (slice : List OHLC) : ℚ :=
  slice.foldl (fun acc d => acc + d.volume) 0

/-- `getAvgRange` inside `detectVCP`: the mean of `high - low`, `0/0 = NaN`
    on an empty slice. -/
def getAvgRange (slice : List OHLC) : JSNum :=
  JSNum.div (.num (sumRange slice)) (.num slice.length)

/-- `getAvgVol` inside `detectVCP`: the mean volume, `0/0 = NaN` on an
    empty slice. -/
def getAvgVol (slice : List OHLC) : JSNum :=
  JSNum.div (.num (sumVol slice)) (.num slice.length)

/-- The exact rational mean per-bar high-minus-low range of a slice. -/
def avgRangeQ (slice : List OHLC) : ℚ := sumRange slice / slice.length

/-- The exact rational mean volume of a slice. -/
def avgVolQ (slice : List OHLC) : ℚ := sumVol slice / slice.length

/-- `detectVCP` (lines 151-174). -/
def detectVCP (data : List OHLC) : VCPStatus :=
  let recent := recentWindow data
  let older := olderWindow data
  let recentRange := getAvgRange recent
  let olderRange := getAvgRange older
  let recentVol := getAvgVol recent
  let olderVol := getAvgVol older
  let contractionRatio := JSNum.div recentRange olderRange
  let volumeRatio := JSNum.div recentVol olderVol
  let isVCP := JSNum.lt contractionRatio (.num 0.75) &&
    JSNum.lt volumeRatio (.num 0.9)
  let tightnessScore := JSNum.min (.num 100)
    (JSNum.max (.num 0) (JSNum.mul (JSNum.sub (.num 1) contractionRatio) (.num 200)))
  ⟨isVCP, contractionRatio, volumeRatio, tightnessScore⟩

/-- `data.slice(-60)` in `calculateFundamentalScore`. -/
def fundamentalWindow (data : List OHLC) : List OHLC :=
  data.drop (data.length - 60)

/-- The `returns` array of `calculateFundamentalScore` (line 179): entry 0
    is `0`, entry `i > 0` is `(close[i] - close[i-1]) / close[i-1]`, which is
    `NaN` or `±∞` when the previous close is `0`. -/
def fundamentalReturns (recent : List OHLC) : List JSNum :=
  match recent with
  | [] => []
  | _ :: _ =>
      .num 0 :: List.zipWith
        (fun p d => JSNum.div (.num (d.close - p.close)) (.num p.close))
        recent recent.tail

/-- `calculateFundamentalScore` (lines 176-187).  On an empty series
    `recent[recent.length - 1]` is `undefined` and `.volume` throws, hence
    the `Option`. -/
def calculateFundamentalScore (data : List OHLC) : Option JSNum :=
  let recent := fundamentalWindow data
  (recent.getLast?).map (fun lastBar =>
    let returns := fundamentalReturns recent
    let positiveDays := (returns.filter (fun r => JSNum.lt (.num 0) r)).length
    let trendQuality := JSNum.mul
      (JSNum.div (.num positiveDays) (.num returns.length)) (.num 100)
    let volVolatility := JSNum.abs (JSNum.sub (.num lastBar.volume)
      (JSNum.div (.num (sumVol recent)) (.num recent.length)))
    let volScore := JSNum.max (.num 0)
      (JSNum.sub (.num 100) (JSNum.div volVolatility (.num 1000000)))
    JSNum.round (JSNum.add (JSNum.mul trendQuality (.num 0.7))
      (JSNum.mul volScore (.num 0.3))))

/-- The daily returns of a window as exact rationals, one per consecutive
    pair of bars (no leading placeholder entry). -/
def returnsQ (recent : List OHLC) : List ℚ :=
  List.zipWith (fun p d => (d.close - p.close) / p.close) recent recent.tail

/-- The trend-quality figure `calculateFundamentalScore` actually computes:
    the share of strictly positive returns among all `N` entries of the
    `returns` array (whose leading entry is the placeholder `0`), times 100. -/
def trendQualityN (data : List OHLC) : ℚ :=
  ((((returnsQ (fundamentalWindow data)).filter
      (fun r => decide (0 < r))).length : ℚ) /
    ((fundamentalWindow data).length : ℚ)) * 100

/-- The volume-stability score of `calculateFundamentalScore` as an exact
    rational, given the volume of the window's last bar. -/
def volScoreQ (data : List OHLC) (lastVolume : ℚ) : ℚ :=
  Max.max 0 (100 - |lastVolume - sumVol (fundamentalWindow data) /
    ((fundamentalWindow data).length : ℚ)| / 1000000)

/-- The fundamental score as the specification words it: the positive-return
    share is taken among the `N - 1` daily returns of the window (the first
    bar contributes to neither numerator nor denominator), the rest as in
    the code. -/
def specFundamentalScore (data : List OHLC) : ℤ :=
  let recent := fundamentalWindow data
  let tq : ℚ := ((((returnsQ recent).filter (fun r => decide (0 < r))).length : ℚ) /
    ((returnsQ recent).length : ℚ)) * 100
  let vs : ℚ := Max.max 0 (100 - |((recent.getLast?.map OHLC.volume).getD 0) -
    sumVol recent / (recent.length : ℚ)| / 1000000)
  ⌊(tq * 0.7 + vs * 0.3) + 1/2⌋

/-- `calculateStrategyScore` (lines 189-212).  The score accumulator is a
    JavaScript number; `analysis.vcp?.tightnessScore || 0` replaces a
    missing, zero or `NaN` tightness score by `0`. -/
def calculateStrategyScore (analysis : StockAnalysisP) (currentPrice : ℚ)
    (strategy : StrategyID) : JSNum :=
  let activeOBs := (analysis.orderBlocks.getD []).filter (fun ob => !ob.isMitigated)
  let score : JSNum :=
    match strategy with
    | .ob_detection =>
        let nearOB := activeOBs.any (fun ob =>
          ob.type == OBType.bullish &&
          decide (currentPrice ≥ ob.bottom * 0.99) &&
          decide (currentPrice ≤ ob.top * 1.05))
        let s1 := if nearOB then JSNum.add (.num 0) (.num 70) else .num 0
        if analysis.trend = some .bullish then JSNum.add s1 (.num 30) else s1
    | .vcp_breakout =>
        let s1 := if (analysis.vcp.map VCPStatus.isVCP).getD false then
          JSNum.add (.num 0) (.num 60) else .num 0
        let tightness := match analysis.vcp with
          | some v => JSNum.orElse v.tightnessScore (.num 0)
          | none => .num 0
        let s2 := JSNum.add s1 (JSNum.mul tightness (.num 0.3))
        if analysis.trend = some .bullish then JSNum.add s2 (.num 10) else s2
  JSNum.min (.num 100) score

/- ------------------------------------------------------------------ -/
/- `src/utils/dataService.ts`                                          -/
/- ------------------------------------------------------------------ -/

/-- The usage-tracking record kept in `localStorage` (fields of
    `getInitialTracking`).  `lastDay` is the `toDateString()` value,
    modelled as a natural day identifier; distinct calendar days yield
    distinct identifiers. -/
structure Tracking where
  dailyCount : ℕ
  hourlyCount : ℕ
  minuteCount : ℕ
  lastDay : ℕ
  lastHour : ℕ
  lastMinute : ℕ
deriving DecidableEq

/-- The current wall-clock reading used by `updateUsage`: the day
    identifier, the hour of day and the minute of hour. -/
structure Now where
  day : ℕ
  hour : ℕ
  minute : ℕ

/-- The state transition of `updateUsage` (lines 22-49): each of the three
    markers is compared on its own; a mismatch zeroes the matching counter
    and moves the marker; then all three counters increment. -/
def updateUsage (now : Now) (data : Tracking) : Tracking :=
  let d1 := if data.lastDay ≠ now.day then
    { data with dailyCount := 0, lastDay := now.day } else data
  let d2 := if d1.lastHour ≠ now.hour then
    { d1 with hourlyCount := 0, lastHour := now.hour } else d1
  let d3 := if d2.lastMinute ≠ now.minute then
    { d2 with minuteCount := 0, lastMinute := now.minute } else d2
  { d3 with
    dailyCount := d3.dailyCount + 1,
    hourlyCount := d3.hourlyCount + 1,
    minuteCount := d3.minuteCount + 1 }

/-- Observable steps of one `fetchStockData` call: a `updateUsage()` call,
    an HTTP attempt (with the status it came back with), or a backoff
    `sleep` of the given milliseconds. -/
inductive FetchEvent where
  | record
  | attempt (status : ℕ)
  | wait (ms : ℕ)
deriving DecidableEq

/-- `Response.ok`: status in the range 200-299. -/
def respOk (s : ℕ) : Bool := decide (200 ≤ s) && decide (s ≤ 299)

/-- The event trace of `fetchStockData` (lines 78-95) when the three
    potential attempts would come back with statuses `s1`, `s2`, `s3`:
    one attempt always happens, a second after a 2000 ms sleep only on a
    429, a third after a 4000 ms sleep only on a second 429, and every
    attempt is preceded by its `updateUsage()` call. -/
def fetchTrace (s1 s2 s3 : ℕ) : List FetchEvent :=
  [.record, .attempt s1] ++
  (if s1 = 429 then
    [.wait 2000, .record, .attempt s2] ++
    (if s2 = 429 then [.wait 4000, .record, .attempt s3] else [])
  else [])

/-- The status of the response held after the retry block of
    `fetchStockData`. -/
def fetchFinalStatus (s1 s2 s3 : ℕ) : ℕ :=
  if s1 = 429 then (if s2 = 429 then s3 else s2) else s1

/-- The outcome of the status check on line 101: a non-ok final response
    makes the call throw (`Except.error` carries the status), otherwise
    parsing proceeds (`Except.ok`). -/
def fetchResult (s1 s2 s3 : ℕ) : Except ℕ ℕ :=
  let s := fetchFinalStatus s1 s2 s3
  if respOk s then .ok s else .error s

/-- Counts the HTTP attempts in a trace. -/
def attemptCount (tr : List FetchEvent) : ℕ :=
  (tr.filter (fun e => match e with | .attempt _ => true | _ => false)).length

/-- Counts the `updateUsage()` calls in a trace. -/
def recordCount (tr : List FetchEvent) : ℕ :=
  (tr.filter (fun e => match e with | .record => true | _ => false)).length

/- ------------------------------------------------------------------ -/
/- `startScan` (App component)                                         -/
/- ------------------------------------------------------------------ -/

/-- JavaScript indexing `data[i]` for a possibly negative or too large
    `i`: `undefined` outside the range. -/
def jsIndex (data : List OHLC) (i : ℤ) : Option OHLC :=
  if 0 ≤ i then data.get? i.toNat else none

/-- The trend classification of `startScan`:
    `currentPrice > data[data.length - 50]?.close ? 'bullish' : 'bearish'`.
    A comparison against `undefined` is false, so short series fall to
    `bearish`; `neutral` is never produced. -/
def scanTrend (currentPrice : ℚ) (data : List OHLC) : Trend :=
  match jsIndex data ((data.length : ℤ) - 50) with
  | some b => if currentPrice > b.close then .bullish else .bearish
  | none => .bearish

/- ------------------------------------------------------------------ -/
/- Basic facts about the JavaScript number model                       -/
/- ------------------------------------------------------------------ -/

theorem JSNum.div_num_of_ne_zero {a b : ℚ} (hb : b ≠ 0) :
    JSNum.div (.num a) (.num b) = .num (a / b) := by
  simp [JSNum.div, hb]

theorem JSNum.div_nan_right (x : JSNum) : JSNum.div x .nan = .nan := by
  cases x <;> rfl

theorem JSNum.lt_nan_left (y : JSNum) : JSNum.lt .nan y = false := by
  cases y <;> rfl

theorem JSNum.max_num (a b : ℚ) :
    JSNum.max (.num a) (.num b) = .num (Max.max a b) := by
  simp only [JSNum.max, JSNum.lt]
  rcases lt_trichotomy a b with h | h | h
  · simp [h, max_eq_right h.le]
  · simp [h, max_self]
  · simp [h.not_lt, max_eq_left h.le]

theorem JSNum.min_num (a b : ℚ) :
    JSNum.min (.num a) (.num b) = .num (Min.min a b) := by
  simp only [JSNum.min, JSNum.lt]
  rcases lt_trichotomy b a with h | h | h
  · simp [h, min_eq_right h.le]
  · simp [h, min_self]
  · simp [h.not_lt, min_eq_left h.le]

/- ------------------------------------------------------------------ -/
/- Claim C6: day rollover in `updateUsage`                             -/
/- ------------------------------------------------------------------ -/

/-- Claim C6, counterexample: a call on a new calendar day whose hour and
    minute numerals coincide with the stored markers does not leave all
    three counters at 1; the hourly and minute counters keep accumulating
    (here 4 becomes 5 and 9 becomes 10). -/
theorem updateUsage_day_rollover_cex :
    (Tracking.mk 3 4 9 0 5 7).lastDay ≠ (Now.mk 1 5 7).day ∧
    ¬ ((updateUsage (Now.mk 1 5 7) (Tracking.mk 3 4 9 0 5 7)).dailyCount = 1 ∧
       (updateUsage (Now.mk 1 5 7) (Tracking.mk 3 4 9 0 5 7)).hourlyCount = 1 ∧
       (updateUsage (Now.mk 1 5 7) (Tracking.mk 3 4 9 0 5 7)).minuteCount = 1) := by
  refine ⟨by decide, ?_⟩
  intro h
  simpa [updateUsage] using h.2.1

/-- Claim C6, amended: on a call made on a calendar day different from the
    stored day marker, the daily counter is reset and ends at 1, but the
    hourly (resp. minute) counter is reset only when its own marker differs
    from the current hour (resp. minute) numeral, and otherwise just
    increments; afterwards all three markers hold the current reading. -/
theorem updateUsage_day_rollover (now : Now) (st : Tracking)
    (h : st.lastDay ≠ now.day) :
    (updateUsage now st).dailyCount = 1 ∧
    (updateUsage now st).hourlyCount =
      (if st.lastHour ≠ now.hour then 1 else st.hourlyCount + 1) ∧
    (updateUsage now st).minuteCount =
      (if st.lastMinute ≠ now.minute then 1 else st.minuteCount + 1) ∧
    (updateUsage now st).lastDay = now.day ∧
    (updateUsage now st).lastHour = now.hour ∧
    (updateUsage now st).lastMinute = now.minute := by
  simp only [updateUsage, h, if_true, ne_eq, ite_not]
  by_cases hh : st.lastHour = now.hour <;>
    by_cases hm : st.lastMinute = now.minute <;>
      simp [hh, hm]

/-- Claim C6, witness for the amended statement: a concrete day change with
    coinciding hour numeral leaves the hourly counter at 7. -/
theorem updateUsage_day_rollover_witness :
    (updateUsage (Now.mk 1 2 3) (Tracking.mk 5 6 8 0 2 9)).dailyCount = 1 ∧
    (updateUsage (Now.mk 1 2 3) (Tracking.mk 5 6 8 0 2 9)).hourlyCount = 7 ∧
    (updateUsage (Now.mk 1 2 3) (Tracking.mk 5 6 8 0 2 9)).minuteCount = 1 := by
  have h := updateUsage_day_rollover (Now.mk 1 2 3) (Tracking.mk 5 6 8 0 2 9)
    (by decide)
  exact ⟨h.1, by simpa using h.2.1, by simpa using h.2.2.1⟩

/- ------------------------------------------------------------------ -/
/- Claim C7: retry discipline of `fetchStockData`                      -/
/- ------------------------------------------------------------------ -/

/-- Claim C7: a `fetchStockData` call makes at most three HTTP attempts;
    the trace is one of three explicit shapes, in each of which every
    attempt is immediately preceded by its `updateUsage()` record and the
    second and third attempts follow 2000 ms and 4000 ms sleeps; a second
    attempt happens exactly when the first response is a 429 and a third
    exactly when the first two are; the number of records equals the number
    of attempts; and a non-ok final response makes the call throw. -/
theorem fetchStockData_retry_spec (s1 s2 s3 : ℕ) :
    attemptCount (fetchTrace s1 s2 s3) ≤ 3 ∧
    recordCount (fetchTrace s1 s2 s3) = attemptCount (fetchTrace s1 s2 s3) ∧
    (2 ≤ attemptCount (fetchTrace s1 s2 s3) ↔ s1 = 429) ∧
    (attemptCount (fetchTrace s1 s2 s3) = 3 ↔ (s1 = 429 ∧ s2 = 429)) ∧
    (s1 ≠ 429 → fetchTrace s1 s2 s3 = [.record, .attempt s1]) ∧
    (s1 = 429 → s2 ≠ 429 → fetchTrace s1 s2 s3 =
      [.record, .attempt s1, .wait 2000, .record, .attempt s2]) ∧
    (s1 = 429 → s2 = 429 → fetchTrace s1 s2 s3 =
      [.record, .attempt s1, .wait 2000, .record, .attempt s2,
       .wait 4000, .record, .attempt s3]) ∧
    (respOk (fetchFinalStatus s1 s2 s3) = false →
      fetchResult s1 s2 s3 = .error (fetchFinalStatus s1 s2 s3)) := by
  by_cases h1 : s1 = 429 <;> by_cases h2 : s2 = 429 <;>
    refine ⟨?_, ?_, ?_, ?_, ?_, ?_, ?_, fun hk => ?_⟩ <;>
      simp_all [fetchTrace, attemptCount, recordCount, fetchResult,
        List.filter]

/-- Claim C7, witness: with two 429 responses followed by a 500, the trace
    shows three attempts, each preceded by a record, and the call throws
    with the final status. -/
theorem fetchStockData_retry_witness :
    fetchTrace 429 429 500 =
      [.record, .attempt 429, .wait 2000, .record, .attempt 429,
       .wait 4000, .record, .attempt 500] ∧
    fetchResult 429 429 500 = .error 500 := by
  have h := fetchStockData_retry_spec 429 429 500
  exact ⟨h.2.2.2.2.2.2.1 rfl rfl, h.2.2.2.2.2.2.2 (by decide)⟩

/- ------------------------------------------------------------------ -/
/- Claim C5: trend classification in `startScan`                       -/
/- ------------------------------------------------------------------ -/

/-- A bar with the given date and close, neutral in every other field. -/
def mkCloseBar (t : ℕ) (c : ℚ) : OHLC :=
  { date := t, «open» := 1, high := 1, low := 1, close := c, volume := 1 }

/-- A 50-bar series with strictly rising closes. -/
def c5data : List OHLC := (List.range 50).map (fun n => mkCloseBar n n)

/-- Claim C5, counterexample: the claim says a series shorter than 51 bars
    is always classified bearish, but on this 50-bar series with rising
    closes the scan compares the last close against `data[0]` (the bar at
    index `length - 50`, not `length - 51`) and labels it bullish. -/
theorem scanTrend_cex :
    c5data.length = 50 ∧
    c5data.get? (c5data.length - 1) = some (mkCloseBar 49 49) ∧
    scanTrend 49 c5data = Trend.bullish := by
  refine ⟨by simp [c5data], by simp [c5data], ?_⟩
  have hlen : c5data.length = 50 := by simp [c5data]
  have h0 : c5data[0]? = some (mkCloseBar 0 0) := by
    simp [c5data]
  simp only [scanTrend, jsIndex, hlen]
  norm_num [h0, mkCloseBar]

/-- Claim C5, amended: with the last bar's close as the current price, the
    scan labels a series bullish exactly when it has at least 50 bars and
    the last close strictly exceeds the close of the bar at index
    `length - 50` (49 positions before the last); any series with fewer
    than 50 bars is labelled bearish, and `neutral` is never assigned. -/
theorem scanTrend_spec (data : List OHLC) (lastBar : OHLC)
    (hlast : data.get? (data.length - 1) = some lastBar) :
    (scanTrend lastBar.close data = Trend.bullish ↔
      (50 ≤ data.length ∧ ∃ b, data.get? (data.length - 50) = some b ∧
        b.close < lastBar.close)) ∧
    (data.length < 50 → scanTrend lastBar.close data = Trend.bearish) ∧
    scanTrend lastBar.close data ≠ Trend.neutral := by
  have hne : data ≠ [] := by
    intro h
    rw [h] at hlast
    simp at hlast
  have hlen1 : 1 ≤ data.length := by
    cases data with
    | nil => exact absurd rfl hne
    | cons a l => simp [Nat.succ_le_succ]
  by_cases h50 : 50 ≤ data.length
  · have hnn : (0 : ℤ) ≤ (data.length : ℤ) - 50 := by
      omega
    have htn : ((data.length : ℤ) - 50).toNat = data.length - 50 := by
      omega
    have hidx : data.length - 50 < data.length := by omega
    obtain ⟨b, hb⟩ : ∃ b, data.get? (data.length - 50) = some b := by
      cases hg : data.get? (data.length - 50) with
      | none => exact absurd (List.get?_eq_none.mp hg) (by omega)
      | some b => exact ⟨b, rfl⟩
    have hst : scanTrend lastBar.close data =
        if lastBar.close > b.close then Trend.bullish else Trend.bearish := by
      simp only [scanTrend, jsIndex, hnn, if_true, htn, hb]
    refine ⟨?_, fun hlt => absurd h50 (by omega), ?_⟩
    · rw [hst]
      constructor
      · intro hb'
        by_cases hc : b.close < lastBar.close
        · exact ⟨h50, b, hb, hc⟩
        · rw [if_neg hc] at hb'
          exact absurd hb' (by decide)
      · rintro ⟨-, b', hb', hc⟩
        rw [hb] at hb'
        injection hb' with hb''
        subst hb''
        exact if_pos hc
    · rw [hst]
      split <;> decide
  · have hneg : ¬ (0 : ℤ) ≤ (data.length : ℤ) - 50 := by omega
    have hst : scanTrend lastBar.close data = Trend.bearish := by
      simp only [scanTrend, jsIndex, hneg, if_false]
    refine ⟨?_, fun _ => hst, by rw [hst]; decide⟩
    rw [hst]
    constructor
    · intro h
      exact absurd h (by decide)
    · rintro ⟨h, -⟩
      exact absurd h h50

/-- Claim C5, witness for the amended statement: on a two-bar series the
    scan reports bearish even though the closes rise, because there is no
    bar 49 positions back. -/
theorem scanTrend_spec_witness :
    scanTrend (mkCloseBar 1 7).close [mkCloseBar 0 3, mkCloseBar 1 7] =
      Trend.bearish := by
  exact (scanTrend_spec [mkCloseBar 0 3, mkCloseBar 1 7] (mkCloseBar 1 7)
    (by simp)).2.1 (by simp)

/- ------------------------------------------------------------------ -/
/- Claim C10: `detectVCP` on series of at most 20 bars                 -/
/- ------------------------------------------------------------------ -/

/-- Claim C10: on a series of at most 20 bars the older comparison window
    is empty, so both of its averages are the JavaScript `0/0 = NaN`, both
    ratios are `NaN`, both threshold comparisons are false, and `detectVCP`
    returns (rather than throwing) with `isVCP = false`. -/
theorem detectVCP_short_series (data : List OHLC) (h : data.length ≤ 20) :
    olderWindow data = [] ∧
    getAvgRange (olderWindow data) = JSNum.nan ∧
    getAvgVol (olderWindow data) = JSNum.nan ∧
    (detectVCP data).contractionRatio = JSNum.nan ∧
    (detectVCP data).volumeRatio = JSNum.nan ∧
    JSNum.lt (detectVCP data).contractionRatio (.num 0.75) = false ∧
    JSNum.lt (detectVCP data).volumeRatio (.num 0.9) = false ∧
    (detectVCP data).isVCP = false := by
  have hold : olderWindow data = [] := by
    have h20 : data.length - 20 = 0 := by omega
    simp [olderWindow, h20]
  have havg : getAvgRange (olderWindow data) = JSNum.nan := by
    rw [hold]
    simp [getAvgRange, sumRange, JSNum.div]
  have havgv : getAvgVol (olderWindow data) = JSNum.nan := by
    rw [hold]
    simp [getAvgVol, sumVol, JSNum.div]
  have hcr : (detectVCP data).contractionRatio = JSNum.nan := by
    simp only [detectVCP, havg]
    exact JSNum.div_nan_right _
  have hvr : (detectVCP data).volumeRatio = JSNum.nan := by
    simp only [detectVCP, havgv]
    exact JSNum.div_nan_right _
  refine ⟨hold, havg, havgv, hcr, hvr, ?_, ?_, ?_⟩
  · rw [hcr]
    exact JSNum.lt_nan_left _
  · rw [hvr]
    exact JSNum.lt_nan_left _
  · have : (detectVCP data).isVCP =
        (JSNum.lt (detectVCP data).contractionRatio (.num 0.75) &&
         JSNum.lt (detectVCP data).volumeRatio (.num 0.9)) := rfl
    rw [this, hcr, hvr, JSNum.lt_nan_left]
    rfl

/-- Claim C10, witness: a five-bar series is never a VCP. -/
theorem detectVCP_short_series_witness :
    (detectVCP [mkCloseBar 0 1, mkCloseBar 1 2, mkCloseBar 2 3,
      mkCloseBar 3 4, mkCloseBar 4 5]).isVCP = false := by
  exact (detectVCP_short_series [mkCloseBar 0 1, mkCloseBar 1 2,
    mkCloseBar 2 3, mkCloseBar 3 4, mkCloseBar 4 5] (by simp)).2.2.2.2.2.2.2

/- ------------------------------------------------------------------ -/
/- Claim C2: `detectVCP` on series with a full older window            -/
/- ------------------------------------------------------------------ -/

/-- Claim C2: when the 20 bars preceding the last 20 exist and carry a
    positive mean high-minus-low range and a positive mean volume,
    `detectVCP` returns the exact ratio of the two window means as
    `contractionRatio`, the analogous volume ratio as `volumeRatio`,
    `isVCP` true exactly when `contractionRatio < 0.75` and
    `volumeRatio < 0.9`, and `tightnessScore` equal to
    `(1 - contractionRatio) * 200` clamped into `[0, 100]`. -/
theorem detectVCP_spec (data : List OHLC) (h40 : 40 ≤ data.length)
    (hR : 0 < avgRangeQ (olderWindow data))
    (hV : 0 < avgVolQ (olderWindow data)) :
    (recentWindow data).length = 20 ∧
    (olderWindow data).length = 20 ∧
    (detectVCP data).contractionRatio =
      .num (avgRangeQ (recentWindow data) / avgRangeQ (olderWindow data)) ∧
    (detectVCP data).volumeRatio =
      .num (avgVolQ (recentWindow data) / avgVolQ (olderWindow data)) ∧
    ((detectVCP data).isVCP = true ↔
      (avgRangeQ (recentWindow data) / avgRangeQ (olderWindow data) < 0.75 ∧
       avgVolQ (recentWindow data) / avgVolQ (olderWindow data) < 0.9)) ∧
    (detectVCP data).tightnessScore =
      .num (Min.min 100 (Max.max 0
        ((1 - avgRangeQ (recentWindow data) / avgRangeQ (olderWindow data))
          * 200))) := by
  have hlr : (recentWindow data).length = 20 := by
    simp only [recentWindow, List.length_drop]
    omega
  have hlo : (olderWindow data).length = 20 := by
    simp only [olderWindow, List.length_drop, List.length_take]
    omega
  have keyR : ∀ w : List OHLC, w.length = 20 → getAvgRange w = .num (avgRangeQ w) := by
    intro w hw
    have hne : ((w.length : ℚ)) ≠ 0 := by
      rw [hw]
      norm_num
    rw [getAvgRange, avgRangeQ, JSNum.div_num_of_ne_zero hne]
  have keyV : ∀ w : List OHLC, w.length = 20 → getAvgVol w = .num (avgVolQ w) := by
    intro w hw
    have hne : ((w.length : ℚ)) ≠ 0 := by
      rw [hw]
      norm_num
    rw [getAvgVol, avgVolQ, JSNum.div_num_of_ne_zero hne]
  have hcr : (detectVCP data).contractionRatio =
      .num (avgRangeQ (recentWindow data) / avgRangeQ (olderWindow data)) := by
    show JSNum.div (getAvgRange (recentWindow data))
      (getAvgRange (olderWindow data)) = _
    rw [keyR _ hlr, keyR _ hlo, JSNum.div_num_of_ne_zero (ne_of_gt hR)]
  have hvr : (detectVCP data).volumeRatio =
      .num (avgVolQ (recentWindow data) / avgVolQ (olderWindow data)) := by
    show JSNum.div (getAvgVol (recentWindow data))
      (getAvgVol (olderWindow data)) = _
    rw [keyV _ hlr, keyV _ hlo, JSNum.div_num_of_ne_zero (ne_of_gt hV)]
  refine ⟨hlr, hlo, hcr, hvr, ?_, ?_⟩
  · have hb : (detectVCP data).isVCP =
        (JSNum.lt (detectVCP data).contractionRatio (.num 0.75) &&
         JSNum.lt (detectVCP data).volumeRatio (.num 0.9)) := rfl
    rw [hb, hcr, hvr]
    simp [JSNum.lt]
  · have hb : (detectVCP data).tightnessScore =
        JSNum.min (.num 100) (JSNum.max (.num 0)
          (JSNum.mul (JSNum.sub (.num 1) (detectVCP data).contractionRatio)
            (.num 200))) := rfl
    rw [hb, hcr]
    simp only [JSNum.sub, JSNum.mul, JSNum.max_num, JSNum.min_num]

/-- A flat 40-bar series: every bar spans one point of range on a volume
    of five. -/
def c2data : List OHLC :=
  List.replicate 40 ⟨0, 1, 2, 1, 1, 5⟩

/-- Claim C2, witness: the 40-bar flat series has full windows and its
    contraction ratio is the exact quotient of the two window means. -/
theorem detectVCP_spec_witness :
    (recentWindow c2data).length = 20 ∧
    (detectVCP c2data).contractionRatio =
      .num (avgRangeQ (recentWindow c2data) / avgRangeQ (olderWindow c2data)) := by
  have h := detectVCP_spec c2data (by simp [c2data])
    (by norm_num [avgRangeQ, sumRange, olderWindow, c2data, List.replicate_succ])
    (by norm_num [avgVolQ, sumVol, olderWindow, c2data, List.replicate_succ])
  exact ⟨h.1, h.2.2.1⟩

/- ------------------------------------------------------------------ -/
/- Claim C3: `calculateStrategyScore` stays within [0, 100]            -/
/- ------------------------------------------------------------------ -/

theorem JSNum.orElse_num_zero (t : ℚ) :
    JSNum.orElse (.num t) (.num 0) = .num t := by
  by_cases h : t = 0
  · subst h
    rfl
  · simp [JSNum.orElse, JSNum.truthy, h]

theorem min100_bounds (x : ℚ) (hx : 0 ≤ x) :
    0 ≤ Min.min 100 x ∧ Min.min 100 x ≤ 100 :=
  ⟨le_min (by norm_num) hx, min_le_left _ _⟩

/-- Claim C3: for a valid analysis input (blocks with `top ≥ bottom`, a
    tightness score inside `[0, 100]` when a VCP status is present) and
    either defined strategy, `calculateStrategyScore` returns a finite
    number in the closed interval `[0, 100]`. -/
theorem calculateStrategyScore_bounds (a : StockAnalysisP) (p : ℚ)
    (s : StrategyID)
    (hob : ∀ ob ∈ a.orderBlocks.getD [], ob.bottom ≤ ob.top)
    (hvcp : ∀ v, a.vcp = some v →
      ∃ t : ℚ, v.tightnessScore = .num t ∧ 0 ≤ t ∧ t ≤ 100) :
    ∃ q : ℚ, calculateStrategyScore a p s = .num q ∧ 0 ≤ q ∧ q ≤ 100 := by
  suffices h : ∃ x : ℚ, calculateStrategyScore a p s = .num (Min.min 100 x) ∧
      0 ≤ x by
    obtain ⟨x, hx, hx0⟩ := h
    exact ⟨Min.min 100 x, hx, (min100_bounds x hx0).1, (min100_bounds x hx0).2⟩
  cases s with
  | ob_detection =>
    by_cases hn : ((a.orderBlocks.getD []).filter
        (fun ob => !ob.isMitigated)).any (fun ob =>
          ob.type == OBType.bullish &&
          decide (p ≥ ob.bottom * 0.99) &&
          decide (p ≤ ob.top * 1.05)) = true <;>
      by_cases ht : a.trend = some Trend.bullish
    · exact ⟨0 + 70 + 30, by
        simp [calculateStrategyScore, hn, ht, JSNum.add, JSNum.min_num],
        by norm_num⟩
    · exact ⟨0 + 70, by
        simp [calculateStrategyScore, hn, ht, JSNum.add, JSNum.min_num],
        by norm_num⟩
    · exact ⟨0 + 30, by
        simp [calculateStrategyScore, hn, ht, JSNum.add, JSNum.min_num],
        by norm_num⟩
    · exact ⟨0, by
        simp [calculateStrategyScore, hn, ht, JSNum.add, JSNum.min_num],
        by norm_num⟩
  | vcp_breakout =>
    cases hvo : a.vcp with
    | none =>
      by_cases ht : a.trend = some Trend.bullish
      · exact ⟨0 + 0 * 0.3 + 10, by
          simp [calculateStrategyScore, hvo, ht, JSNum.add, JSNum.mul,
            JSNum.min_num], by norm_num⟩
      · exact ⟨0 + 0 * 0.3, by
          simp [calculateStrategyScore, hvo, ht, JSNum.add, JSNum.mul,
            JSNum.min_num], by norm_num⟩
    | some v =>
      obtain ⟨t, htv, ht0, ht100⟩ := hvcp v hvo
      by_cases hb : v.isVCP = true <;>
        by_cases ht : a.trend = some Trend.bullish
      · exact ⟨0 + 60 + t * 0.3 + 10, by
          simp [calculateStrategyScore, hvo, hb, ht, htv,
            JSNum.orElse_num_zero, JSNum.add, JSNum.mul, JSNum.min_num],
          by linarith⟩
      · exact ⟨0 + 60 + t * 0.3, by
          simp [calculateStrategyScore, hvo, hb, ht, htv,
            JSNum.orElse_num_zero, JSNum.add, JSNum.mul, JSNum.min_num],
          by linarith⟩
      · exact ⟨0 + t * 0.3 + 10, by
          simp [calculateStrategyScore, hvo, hb, ht, htv,
            JSNum.orElse_num_zero, JSNum.add, JSNum.mul, JSNum.min_num],
          by linarith⟩
      · exact ⟨0 + t * 0.3, by
          simp [calculateStrategyScore, hvo, hb, ht, htv,
            JSNum.orElse_num_zero, JSNum.add, JSNum.mul, JSNum.min_num],
          by linarith⟩

/-- Claim C3, witness: a concrete analysis with an in-range tightness score
    scores inside `[0, 100]` under the VCP-breakout strategy. -/
theorem calculateStrategyScore_bounds_witness :
    ∃ q : ℚ, calculateStrategyScore
      ⟨some [], some ⟨false, .nan, .nan, .num 50⟩, some .bullish⟩ 0
      .vcp_breakout = .num q ∧ 0 ≤ q ∧ q ≤ 100 := by
  exact calculateStrategyScore_bounds
    ⟨some [], some ⟨false, .nan, .nan, .num 50⟩, some .bullish⟩ 0
    .vcp_breakout (by simp)
    (by
      intro v hv
      injection hv with h
      subst h
      exact ⟨50, rfl, by norm_num, by norm_num⟩)

/- ------------------------------------------------------------------ -/
/- Claim C4: `calculateFundamentalScore`                               -/
/- ------------------------------------------------------------------ -/

theorem zipWith_returns_num :
    ∀ (l1 l2 : List OHLC), (∀ p ∈ l1, p.close ≠ 0) →
    List.zipWith (fun p d => JSNum.div (.num (d.close - p.close))
      (.num p.close)) l1 l2 =
    (List.zipWith (fun p d => (d.close - p.close) / p.close) l1 l2).map
      JSNum.num := by
  intro l1
  induction l1 with
  | nil =>
    intro l2 h
    simp
  | cons a l ih =>
    intro l2 h
    cases l2 with
    | nil => simp
    | cons b m =>
      simp only [List.zipWith_cons_cons, List.map_cons]
      refine congrArg₂ _ ?_ ?_
      · exact JSNum.div_num_of_ne_zero (h a (by simp))
      · exact ih m (fun p hp => h p (List.mem_cons_of_mem _ hp))

theorem JSNum.lt_num (a b : ℚ) :
    JSNum.lt (.num a) (.num b) = decide (a < b) := rfl

theorem JSNum.add_num (a b : ℚ) :
    JSNum.add (.num a) (.num b) = .num (a + b) := rfl

theorem JSNum.sub_num (a b : ℚ) :
    JSNum.sub (.num a) (.num b) = .num (a - b) := rfl

theorem JSNum.mul_num (a b : ℚ) :
    JSNum.mul (.num a) (.num b) = .num (a * b) := rfl

theorem JSNum.abs_num (a : ℚ) : JSNum.abs (.num a) = .num |a| := rfl

theorem JSNum.round_num (a : ℚ) :
    JSNum.round (.num a) = .num ((⌊a + 1/2⌋ : ℤ) : ℚ) := rfl

theorem fundamentalReturns_cons (x : OHLC) (xs : List OHLC) :
    fundamentalReturns (x :: xs) = .num 0 :: List.zipWith
      (fun p d => JSNum.div (.num (d.close - p.close)) (.num p.close))
      (x :: xs) xs := rfl

theorem returnsQ_cons (x : OHLC) (xs : List OHLC) :
    returnsQ (x :: xs) = List.zipWith
      (fun p d => (d.close - p.close) / p.close) (x :: xs) xs := rfl

/-- The two-bar series refuting claim C4's denominator: one rising daily
    return, equal volumes. -/
def c4data : List OHLC := [⟨0, 1, 1, 1, 10, 1000000⟩, ⟨1, 1, 1, 1, 11, 1000000⟩]

/-- `calculateFundamentalScore` on a series whose window has a last bar:
    the match on `getLast?` eliminated. -/
theorem calculateFundamentalScore_getLast (data : List OHLC) (lastBar : OHLC)
    (h : (fundamentalWindow data).getLast? = some lastBar) :
    calculateFundamentalScore data = some (JSNum.round (JSNum.add
      (JSNum.mul (JSNum.mul (JSNum.div
        (.num (((fundamentalReturns (fundamentalWindow data)).filter
          (fun r => JSNum.lt (.num 0) r)).length : ℚ))
        (.num ((fundamentalReturns (fundamentalWindow data)).length : ℚ)))
        (.num 100)) (.num 0.7))
      (JSNum.mul (JSNum.max (.num 0) (JSNum.sub (.num 100) (JSNum.div
        (JSNum.abs (JSNum.sub (.num lastBar.volume)
          (JSNum.div (.num (sumVol (fundamentalWindow data)))
            (.num (((fundamentalWindow data).length : ℚ))))))
        (.num 1000000)))) (.num 0.3)))) := by
  simp only [calculateFundamentalScore, h]
  rfl

/-- Claim C4, counterexample: on a two-bar window with its single daily
    return positive, the code divides the positive-day count by the length
    of the `returns` array (2, the window length, because of the leading
    placeholder `0`), giving trend quality 50 and a final score of 65; the
    claim's formula divides by the number of actual returns (1), giving
    100. -/
theorem calculateFundamentalScore_cex :
    (2 : ℕ) ≤ c4data.length ∧
    calculateFundamentalScore c4data = some (.num 65) ∧
    specFundamentalScore c4data = 100 ∧
    calculateFundamentalScore c4data ≠
      some (.num ((specFundamentalScore c4data : ℤ) : ℚ)) := by
  have hw : fundamentalWindow c4data = c4data := by
    simp [fundamentalWindow, c4data]
  have hlastv : (fundamentalWindow c4data).getLast? =
      some ⟨1, 1, 1, 1, 11, 1000000⟩ := by
    rw [hw]
    rfl
  have hr0 : fundamentalReturns c4data =
      [.num 0, JSNum.div (.num (11 - 10)) (.num 10)] := rfl
  have hr : fundamentalReturns c4data = [.num 0, .num (1/10)] := by
    rw [hr0, JSNum.div_num_of_ne_zero (by norm_num : (10:ℚ) ≠ 0)]
    norm_num
  have hsv : sumVol c4data = 2000000 := by
    norm_num [sumVol, c4data]
  have hg := calculateFundamentalScore_getLast c4data ⟨1, 1, 1, 1, 11, 1000000⟩
    hlastv
  rw [hw, hr, hsv] at hg
  have hlen0 : c4data.length = 2 := rfl
  have h1 : calculateFundamentalScore c4data = some (.num 65) := by
    rw [hg]
    norm_num [hlen0, List.filter, JSNum.lt_num, JSNum.div_num_of_ne_zero,
      JSNum.mul_num, JSNum.sub_num, JSNum.add_num, JSNum.abs_num,
      JSNum.round_num, JSNum.max_num, max_def]
  have h2 : specFundamentalScore c4data = 100 := by
    have hrq : returnsQ c4data = [(11 - 10) / 10] := rfl
    have hgl2 : c4data.getLast? = some ⟨1, 1, 1, 1, 11, 1000000⟩ := rfl
    have hlen2 : c4data.length = 2 := rfl
    norm_num [specFundamentalScore, hw, hrq, hsv, hgl2, hlen2, List.filter,
      max_def]
  refine ⟨by simp [c4data], h1, h2, ?_⟩
  rw [h1, h2]
  intro h
  injection h with h'
  injection h' with h''
  norm_num at h''

/-- Claim C4, amended: for a series of at least two bars whose last-60-bar
    window has no zero close, `calculateFundamentalScore` returns
    `round(0.7 * trendQuality + 0.3 * volScore)` where `volScore` is as the
    claim states it, but `trendQuality` is 100 times the count of strictly
    positive daily returns divided by the full window length `N` (the
    placeholder entry for the first bar counts in the denominator), not by
    `N - 1`. -/
theorem calculateFundamentalScore_eq (data : List OHLC) (lastBar : OHLC)
    (h2 : 2 ≤ data.length)
    (hlast : (fundamentalWindow data).getLast? = some lastBar)
    (hpos : ∀ d ∈ fundamentalWindow data, d.close ≠ 0) :
    calculateFundamentalScore data =
      some (.num ((⌊(trendQualityN data * 0.7 +
        volScoreQ data lastBar.volume * 0.3) + 1/2⌋ : ℤ) : ℚ)) := by
  obtain ⟨x, xs, hxs⟩ : ∃ x xs, fundamentalWindow data = x :: xs := by
    cases hw : fundamentalWindow data with
    | nil =>
      rw [hw] at hlast
      simp at hlast
    | cons x xs => exact ⟨x, xs, rfl⟩
  have hlenQ : (((fundamentalWindow data).length : ℚ)) ≠ 0 := by
    rw [hxs]
    simp only [List.length_cons]
    positivity
  have hret : fundamentalReturns (fundamentalWindow data) =
      .num 0 :: (returnsQ (fundamentalWindow data)).map JSNum.num := by
    rw [hxs, fundamentalReturns_cons, returnsQ_cons]
    exact congrArg _
      (zipWith_returns_num (x :: xs) xs (by rw [← hxs]; exact hpos))
  have hretlen : (fundamentalReturns (fundamentalWindow data)).length =
      (fundamentalWindow data).length := by
    rw [hret, hxs]
    simp [returnsQ]
  have hfilter : (fundamentalReturns (fundamentalWindow data)).filter
      (fun r => JSNum.lt (.num 0) r) =
      ((returnsQ (fundamentalWindow data)).filter
        (fun r => decide (0 < r))).map JSNum.num := by
    rw [hret, List.filter_cons]
    have h0 : JSNum.lt (.num 0) (.num 0) = false := by
      rw [JSNum.lt_num]
      norm_num
    rw [h0]
    simp only [Bool.false_eq_true, if_false]
    rw [List.filter_map]
    rfl
  rw [calculateFundamentalScore_getLast data lastBar hlast]
  rw [hfilter, List.length_map, hretlen]
  simp only [JSNum.div_num_of_ne_zero hlenQ, JSNum.sub_num, JSNum.abs_num,
    JSNum.div_num_of_ne_zero (by norm_num : (1000000 : ℚ) ≠ 0),
    JSNum.mul_num, JSNum.add_num, JSNum.max_num, JSNum.round_num]
  rfl

/-- Claim C4, witness for the amended statement: the two-bar series
    evaluates to the amended formula's value. -/
theorem calculateFundamentalScore_eq_witness :
    calculateFundamentalScore c4data =
      some (.num ((⌊(trendQualityN c4data * 0.7 +
        volScoreQ c4data (1000000 : ℚ) * 0.3) + 1/2⌋ : ℤ) : ℚ)) := by
  exact calculateFundamentalScore_eq c4data ⟨1, 1, 1, 1, 11, 1000000⟩
    (by simp [c4data])
    (by simp [fundamentalWindow, c4data])
    (by
      intro d hd
      simp only [fundamentalWindow, c4data] at hd
      norm_num at hd
      rcases hd with h | h <;> rw [h] <;> norm_num)

/- ------------------------------------------------------------------ -/
/- Membership structure of `detectOrderBlocks`                         -/
/- ------------------------------------------------------------------ -/

theorem mem_rawOrderBlocks {data : List OHLC} {ob : OrderBlock} :
    ob ∈ rawOrderBlocks data ↔
      ∃ i, 20 ≤ i ∧ i + 5 < data.length ∧ ob ∈ obCandidates data i := by
  rw [rawOrderBlocks, List.mem_flatMap]
  constructor
  · rintro ⟨i, hi, hob⟩
    rw [List.mem_filter] at hi
    obtain ⟨-, hcond⟩ := hi
    simp only [Bool.and_eq_true, decide_eq_true_eq] at hcond
    exact ⟨i, hcond.1, hcond.2, hob⟩
  · rintro ⟨i, h20, h5, hob⟩
    refine ⟨i, ?_, hob⟩
    rw [List.mem_filter, List.mem_range]
    refine ⟨by omega, ?_⟩
    simp only [Bool.and_eq_true, decide_eq_true_eq]
    exact ⟨h20, h5⟩

theorem obCandidates_cases {data : List OHLC} {i : ℕ} {ob : OrderBlock}
    (h : ob ∈ obCandidates data i) :
    ∃ current prev next fwd,
      data.get? i = some current ∧ data.get? (i - 1) = some prev ∧
      data.get? (i + 1) = some next ∧ data.get? (i + 3) = some fwd ∧
      ob.startTime = current.date ∧ ob.isMitigated = false ∧
      ((ob.type = .bullish ∧
        current.low < prev.low ∧ current.low < next.low ∧
        fwd.close > current.high * 1.015 ∧
        ob.top = Max.max current.«open» current.close ∧
        ob.bottom = current.low ∧
        ob.strength = (fwd.close - current.low) / current.low * 100) ∨
       (ob.type = .bearish ∧
        current.high > prev.high ∧ current.high > next.high ∧
        fwd.close < current.low * 0.985 ∧
        ob.top = current.high ∧
        ob.bottom = Min.min current.«open» current.close ∧
        ob.strength = (current.high - fwd.close) / current.high * 100)) := by
  rw [obCandidates.eq_def] at h
  cases h1 : data.get? i with
  | none => rw [h1] at h; simp at h
  | some current =>
  cases h2 : data.get? (i - 1) with
  | none => rw [h1, h2] at h; simp at h
  | some prev =>
  cases h3 : data.get? (i + 1) with
  | none => rw [h1, h2, h3] at h; simp at h
  | some next =>
  cases h4 : data.get? (i + 3) with
  | none => rw [h1, h2, h3, h4] at h; simp at h
  | some fwd =>
  rw [h1, h2, h3, h4] at h
  simp only [List.mem_append] at h
  refine ⟨current, prev, next, fwd, rfl, rfl, rfl, rfl, ?_⟩
  rcases h with h | h
  · split_ifs at h with hc
    · rw [List.mem_singleton] at h
      subst h
      exact ⟨rfl, rfl, Or.inl ⟨rfl, hc.1, hc.2.1, hc.2.2, rfl, rfl, rfl⟩⟩
    · simp at h
  · split_ifs at h with hc
    · rw [List.mem_singleton] at h
      subst h
      exact ⟨rfl, rfl, Or.inr ⟨rfl, hc.1, hc.2.1, hc.2.2, rfl, rfl, rfl⟩⟩
    · simp at h

theorem obCandidates_eq_of_get? {d1 d2 : List OHLC} {i : ℕ}
    (h1 : d1.get? i = d2.get? i) (h2 : d1.get? (i - 1) = d2.get? (i - 1))
    (h3 : d1.get? (i + 1) = d2.get? (i + 1))
    (h4 : d1.get? (i + 3) = d2.get? (i + 3)) :
    obCandidates d1 i = obCandidates d2 i := by
  rw [obCandidates.eq_def, obCandidates.eq_def, h1, h2, h3, h4]

theorem obCandidates_of_get? {data : List OHLC} {i : ℕ}
    {current prev next fwd : OHLC}
    (h1 : data.get? i = some current) (h2 : data.get? (i - 1) = some prev)
    (h3 : data.get? (i + 1) = some next)
    (h4 : data.get? (i + 3) = some fwd) :
    obCandidates data i =
      (if current.low < prev.low ∧ current.low < next.low ∧
          fwd.close > current.high * 1.015 then
        [{ type := .bullish,
           top := Max.max current.«open» current.close,
           bottom := current.low,
           startTime := current.date,
           isMitigated := false,
           strength := (fwd.close - current.low) / current.low * 100 }]
      else []) ++
      (if current.high > prev.high ∧ current.high > next.high ∧
          fwd.close < current.low * 0.985 then
        [{ type := .bearish,
           top := current.high,
           bottom := Min.min current.«open» current.close,
           startTime := current.date,
           isMitigated := false,
           strength := (current.high - fwd.close) / current.high * 100 }]
      else []) := by
  rw [obCandidates.eq_def, h1, h2, h3, h4]

theorem detectOrderBlocks_some {data : List OHLC} {obs : List OrderBlock}
    (h : detectOrderBlocks data = some obs) :
    obs = (rawOrderBlocks data).map
      (fun ob => { ob with isMitigated := mitigatedFlag data ob }) := by
  rw [detectOrderBlocks] at h
  split at h
  · exact absurd h (by simp)
  · injection h with h'
    exact h'.symm

theorem mitigatedFlag_set (data : List OHLC) (ob : OrderBlock) (b : Bool) :
    mitigatedFlag data { ob with isMitigated := b } = mitigatedFlag data ob :=
  rfl

theorem findIdx?_first_aux (p : OHLC → Bool) :
    ∀ (l : List OHLC) (s i : ℕ) (cur : OHLC), l.get? i = some cur →
    p cur = true →
    (∀ j d, j < i → l.get? j = some d → p d = false) →
    List.findIdx? p l s = some (s + i) := by
  intro l
  induction l with
  | nil =>
    intro s i cur h _ _
    simp at h
  | cons a t ih =>
    intro s i cur hget hp hfirst
    cases i with
    | zero =>
      injection hget with h
      subst h
      rw [List.findIdx?_cons, if_pos hp]
      exact congrArg some (by omega)
    | succ n =>
      have hpa : p a = false := hfirst 0 a (Nat.succ_pos n) rfl
      rw [List.findIdx?_cons, if_neg (by simp [hpa])]
      have hr := ih (s + 1) n cur hget hp
        (fun j d hj hd => hfirst (j + 1) d (by omega) (by simpa using hd))
      rw [hr]
      congr 1
      omega

theorem nodup_date_get?_inj {data : List OHLC}
    (hnd : (data.map OHLC.date).Nodup)
    {i j : ℕ} {c d : OHLC} (hi : data.get? i = some c)
    (hj : data.get? j = some d) (hdate : c.date = d.date) : i = j := by
  have h1 : (data.map OHLC.date).get? i = some c.date := by
    rw [List.get?_map, hi]
    rfl
  have h2 : (data.map OHLC.date).get? j = some d.date := by
    rw [List.get?_map, hj]
    rfl
  have hlt : i < (data.map OHLC.date).length := by
    rw [List.length_map]
    exact (List.get?_eq_some.mp hi).1
  exact List.get?_inj hlt hnd (by rw [h1, h2, hdate])

theorem mitigationStart_eq {data : List OHLC} {ob : OrderBlock} {i : ℕ}
    {cur : OHLC} (hnd : (data.map OHLC.date).Nodup)
    (hget : data.get? i = some cur) (hdate : cur.date = ob.startTime) :
    mitigationStart data ob = i + 1 := by
  have hf : List.findIdx? (fun d => d.date == ob.startTime) data = some i := by
    have := findIdx?_first_aux (fun d => d.date == ob.startTime) data 0 i cur
      hget
      (by
        show (cur.date == ob.startTime) = true
        rw [hdate, beq_self_eq_true])
      (by
        intro j d hj hd
        show (d.date == ob.startTime) = false
        rw [beq_eq_false_iff_ne]
        intro he
        exact absurd (nodup_date_get?_inj hnd hd hget (by rw [he, hdate]))
          (by omega))
    simpa using this
  rw [mitigationStart, hf]

theorem any_drop_iff {l : List OHLC} {p : OHLC → Bool} {n : ℕ} :
    (l.drop n).any p = true ↔
      ∃ j d, n ≤ j ∧ l.get? j = some d ∧ p d = true := by
  rw [List.any_eq_true]
  constructor
  · rintro ⟨x, hx, hpx⟩
    obtain ⟨k, hk⟩ := List.mem_iff_get?.mp hx
    rw [List.get?_drop] at hk
    exact ⟨n + k, x, Nat.le_add_right n k, hk, hpx⟩
  · rintro ⟨j, d, hj, hget, hpd⟩
    refine ⟨d, ?_, hpd⟩
    apply List.mem_iff_get?.mpr
    refine ⟨j - n, ?_⟩
    rw [List.get?_drop, show n + (j - n) = j by omega]
    exact hget

/- ------------------------------------------------------------------ -/
/- Claim C8: blocks never have `top < bottom`                          -/
/- ------------------------------------------------------------------ -/

/-- Claim C8: when every bar is well-formed (`low` at most both body ends,
    `high` at least both), every block `detectOrderBlocks` returns has
    `bottom ≤ top`. -/
theorem detectOrderBlocks_top_ge_bottom (data : List OHLC)
    (hwf : ∀ d ∈ data, d.low ≤ Min.min d.«open» d.close ∧
      Max.max d.«open» d.close ≤ d.high)
    (obs : List OrderBlock) (h : detectOrderBlocks data = some obs) :
    ∀ ob ∈ obs, ob.bottom ≤ ob.top := by
  intro ob hob
  rw [detectOrderBlocks_some h, List.mem_map] at hob
  obtain ⟨ob0, hob0, rfl⟩ := hob
  obtain ⟨i, -, -, hc⟩ := mem_rawOrderBlocks.mp hob0
  obtain ⟨cur, prev, next, fwd, hgi, -, -, -, -, -, hcase⟩ :=
    obCandidates_cases hc
  have hcur : cur ∈ data := List.mem_iff_get?.mpr ⟨i, hgi⟩
  obtain ⟨hl, hh⟩ := hwf cur hcur
  show ob0.bottom ≤ ob0.top
  rcases hcase with ⟨-, -, -, -, htop, hbot, -⟩ | ⟨-, -, -, -, htop, hbot, -⟩
  · rw [htop, hbot]
    exact le_trans hl (le_trans min_le_max (le_refl _))
  · rw [htop, hbot]
    exact le_trans min_le_max (le_trans hh (le_refl _))

/-- A 26-bar series of well-formed bars (body inside the low-high span)
    producing one bullish block at bar 20. -/
def c8data : List OHLC :=
  [⟨0, 10, 12, 5, 10, 0⟩, ⟨1, 10, 12, 5, 10, 0⟩, ⟨2, 10, 12, 5, 10, 0⟩,
   ⟨3, 10, 12, 5, 10, 0⟩, ⟨4, 10, 12, 5, 10, 0⟩, ⟨5, 10, 12, 5, 10, 0⟩,
   ⟨6, 10, 12, 5, 10, 0⟩, ⟨7, 10, 12, 5, 10, 0⟩, ⟨8, 10, 12, 5, 10, 0⟩,
   ⟨9, 10, 12, 5, 10, 0⟩, ⟨10, 10, 12, 5, 10, 0⟩, ⟨11, 10, 12, 5, 10, 0⟩,
   ⟨12, 10, 12, 5, 10, 0⟩, ⟨13, 10, 12, 5, 10, 0⟩, ⟨14, 10, 12, 5, 10, 0⟩,
   ⟨15, 10, 12, 5, 10, 0⟩, ⟨16, 10, 12, 5, 10, 0⟩, ⟨17, 10, 12, 5, 10, 0⟩,
   ⟨18, 10, 12, 5, 10, 0⟩, ⟨19, 10, 12, 5, 10, 0⟩, ⟨20, 10, 10, 4, 10, 0⟩,
   ⟨21, 10, 12, 6, 10, 0⟩, ⟨22, 10, 12, 5, 10, 0⟩, ⟨23, 10, 14, 5, 13, 0⟩,
   ⟨24, 10, 12, 5, 10, 0⟩, ⟨25, 10, 12, 5, 10, 0⟩]

/-- The single (unmitigated) block `detectOrderBlocks` finds in `c8data`. -/
def c8block : OrderBlock := ⟨.bullish, 10, 4, 20, false, 225⟩

theorem c8data_detect : detectOrderBlocks c8data = some [c8block] := by
  have h1 : c8data.get? 20 = some ⟨20, 10, 10, 4, 10, 0⟩ := rfl
  have h2 : c8data.get? (20 - 1) = some ⟨19, 10, 12, 5, 10, 0⟩ := rfl
  have h3 : c8data.get? (20 + 1) = some ⟨21, 10, 12, 6, 10, 0⟩ := rfl
  have h4 : c8data.get? (20 + 3) = some ⟨23, 10, 14, 5, 13, 0⟩ := rfl
  have hcand : obCandidates c8data 20 =
      [⟨.bullish, Max.max 10 10, 4, 20, false, (13 - 4) / 4 * 100⟩] := by
    rw [obCandidates_of_get? h1 h2 h3 h4]
    rw [if_pos (by norm_num), if_neg ?hneg, List.append_nil]
    case hneg =>
      intro hcon
      have := hcon.1
      norm_num at this
  have hlen : c8data.length = 26 := rfl
  have hraw : rawOrderBlocks c8data =
      [⟨.bullish, Max.max 10 10, 4, 20, false, (13 - 4) / 4 * 100⟩] := by
    unfold rawOrderBlocks
    rw [hlen]
    rw [show (List.range 26).filter
        (fun i => decide (20 ≤ i) && decide (i + 5 < 26)) = [20] from by
      decide]
    rw [List.flatMap_cons, List.flatMap_nil, List.append_nil, hcand]
  have hms : mitigationStart c8data
      ⟨.bullish, Max.max 10 10, 4, 20, false, (13 - 4) / 4 * 100⟩ = 21 := rfl
  have hmf : mitigatedFlag c8data
      ⟨.bullish, Max.max 10 10, 4, 20, false, (13 - 4) / 4 * 100⟩ = false := by
    unfold mitigatedFlag
    rw [hms]
    decide
  unfold detectOrderBlocks
  rw [if_neg (by decide : ¬(c8data.isEmpty = true))]
  rw [hraw, List.map_cons, List.map_nil, hmf]
  norm_num [c8block]

/-- Claim C8, witness: the block found in the well-formed series respects
    the bound. -/
theorem detectOrderBlocks_top_ge_bottom_witness :
    c8block.bottom ≤ c8block.top :=
  detectOrderBlocks_top_ge_bottom c8data (by decide) [c8block] c8data_detect
    c8block (List.mem_singleton_self _)

/- ------------------------------------------------------------------ -/
/- Claim C9: block strength always exceeds 1.5                         -/
/- ------------------------------------------------------------------ -/

/-- Claim C9: when every bar has strictly positive prices and
    `low ≤ high`, every block `detectOrderBlocks` emits has strength
    strictly greater than 1.5, because the strong-move conditions force a
    move of more than 1.5 percent from the origin bar's boundary. -/
theorem detectOrderBlocks_strength (data : List OHLC)
    (hpos : ∀ d ∈ data, 0 < d.«open» ∧ 0 < d.high ∧ 0 < d.low ∧
      0 < d.close ∧ d.low ≤ d.high)
    (obs : List OrderBlock) (h : detectOrderBlocks data = some obs) :
    ∀ ob ∈ obs, (3/2 : ℚ) < ob.strength := by
  intro ob hob
  rw [detectOrderBlocks_some h, List.mem_map] at hob
  obtain ⟨ob0, hob0, rfl⟩ := hob
  obtain ⟨i, -, -, hc⟩ := mem_rawOrderBlocks.mp hob0
  obtain ⟨cur, prev, next, fwd, hgi, -, -, -, -, -, hcase⟩ :=
    obCandidates_cases hc
  have hcur : cur ∈ data := List.mem_iff_get?.mpr ⟨i, hgi⟩
  obtain ⟨-, hhigh, hlow, -, hlh⟩ := hpos cur hcur
  show (3/2 : ℚ) < ob0.strength
  rcases hcase with ⟨-, -, -, hmove, -, -, hstr⟩ | ⟨-, -, -, hmove, -, -, hstr⟩
  · rw [hstr, div_mul_eq_mul_div, lt_div_iff hlow]
    have hml : cur.low * 1.015 ≤ cur.high * 1.015 :=
      mul_le_mul_of_nonneg_right hlh (by norm_num)
    nlinarith [hmove, hml]
  · rw [hstr, div_mul_eq_mul_div, lt_div_iff hhigh]
    have hml : cur.low * 0.985 ≤ cur.high * 0.985 :=
      mul_le_mul_of_nonneg_right hlh (by norm_num)
    nlinarith [hmove, hml]

/- ------------------------------------------------------------------ -/
/- Claim C1: mitigation flag semantics of `detectOrderBlocks`          -/
/- ------------------------------------------------------------------ -/

/-- Claim C1, amended: (a) for a series with pairwise-distinct bar dates, a
    returned block is flagged mitigated exactly when some bar strictly
    after the block's origin bar (the bar carrying the block's start date)
    breaches its boundary — below the bottom for bullish blocks, above the
    top for bearish ones; (b) for any series at all, appending bars never
    turns a mitigated block back into an unmitigated one: the same block
    reappears, still mitigated. -/
theorem detectOrderBlocks_mitigation :
    (∀ (data : List OHLC), (data.map OHLC.date).Nodup →
      ∀ obs, detectOrderBlocks data = some obs →
      ∀ ob ∈ obs, ∀ i cur, data.get? i = some cur →
      cur.date = ob.startTime →
      (ob.isMitigated = true ↔
        ∃ j d, i < j ∧ data.get? j = some d ∧ breachB ob d = true)) ∧
    (∀ (data ext : List OHLC) (obs obs' : List OrderBlock),
      detectOrderBlocks data = some obs →
      detectOrderBlocks (data ++ ext) = some obs' →
      ∀ ob ∈ obs, ob.isMitigated = true → ob ∈ obs') := by
  constructor
  · intro data hnd obs hdet ob hob i cur hget hdate
    rw [detectOrderBlocks_some hdet, List.mem_map] at hob
    obtain ⟨ob0, hob0, rfl⟩ := hob
    have hdate0 : cur.date = ob0.startTime := hdate
    have hstart : mitigationStart data ob0 = i + 1 :=
      mitigationStart_eq hnd hget hdate0
    rw [show ({ ob0 with isMitigated := mitigatedFlag data ob0 } :
          OrderBlock).isMitigated = mitigatedFlag data ob0 from rfl,
        show breachB { ob0 with isMitigated := mitigatedFlag data ob0 } =
          breachB ob0 from rfl]
    unfold mitigatedFlag
    rw [hstart]
    exact any_drop_iff
  · intro data ext obs obs' h1 h2 ob hob hm
    rw [detectOrderBlocks_some h1, List.mem_map] at hob
    obtain ⟨ob0, hob0, rfl⟩ := hob
    have hm' : mitigatedFlag data ob0 = true := hm
    rw [detectOrderBlocks_some h2, List.mem_map]
    refine ⟨ob0, ?_, ?_⟩
    · rw [mem_rawOrderBlocks] at hob0 ⊢
      obtain ⟨i, h20, h5, hc⟩ := hob0
      refine ⟨i, h20, by rw [List.length_append]; omega, ?_⟩
      rw [obCandidates_eq_of_get?
        (List.get?_append (show i < data.length by omega))
        (List.get?_append (show i - 1 < data.length by omega))
        (List.get?_append (show i + 1 < data.length by omega))
        (List.get?_append (show i + 3 < data.length by omega))]
      exact hc
    · obtain ⟨i1, -, -, hc1⟩ := mem_rawOrderBlocks.mp hob0
      obtain ⟨cur1, -, -, -, hgi1, -, -, -, hdate1, -, -⟩ :=
        obCandidates_cases hc1
      have hsome : (List.findIdx?
          (fun d => d.date == ob0.startTime) data).isSome := by
        rw [List.findIdx?_isSome, List.any_eq_true]
        refine ⟨cur1, List.mem_iff_get?.mpr ⟨i1, hgi1⟩, ?_⟩
        show (cur1.date == ob0.startTime) = true
        rw [hdate1, beq_self_eq_true]
      obtain ⟨k, hk⟩ := Option.isSome_iff_exists.mp hsome
      have happend : List.findIdx?
          (fun d => d.date == ob0.startTime) (data ++ ext) = some k := by
        rw [List.findIdx?_append, hk, Option.or_some]
      have hs1 : mitigationStart data ob0 = k + 1 := by
        unfold mitigationStart
        rw [hk]
      have hs2 : mitigationStart (data ++ ext) ob0 = k + 1 := by
        unfold mitigationStart
        rw [happend]
      have hany : (data.drop (k + 1)).any (breachB ob0) = true := by
        have hmm := hm'
        unfold mitigatedFlag at hmm
        rw [hs1] at hmm
        exact hmm
      have hext : mitigatedFlag (data ++ ext) ob0 = true := by
        unfold mitigatedFlag
        rw [hs2, any_drop_iff]
        rw [any_drop_iff] at hany
        obtain ⟨j, d, hj, hget, hbr⟩ := hany
        have hjlen : j < data.length := (List.get?_eq_some.mp hget).1
        refine ⟨j, d, hj, ?_, hbr⟩
        rw [List.get?_append hjlen]
        exact hget
      rw [hext, hm']

/-- A 26-bar series in which bar 5 carries the same date as bar 20 (the
    origin of the detected bullish block), and bar 6 dips below the block's
    bottom while no bar after bar 20 does. -/
def c1data : List OHLC :=
  [⟨0, 10, 12, 5, 10, 0⟩, ⟨1, 10, 12, 5, 10, 0⟩, ⟨2, 10, 12, 5, 10, 0⟩,
   ⟨3, 10, 12, 5, 10, 0⟩, ⟨4, 10, 12, 5, 10, 0⟩, ⟨100, 10, 12, 5, 10, 0⟩,
   ⟨6, 10, 12, 3, 10, 0⟩, ⟨7, 10, 12, 5, 10, 0⟩, ⟨8, 10, 12, 5, 10, 0⟩,
   ⟨9, 10, 12, 5, 10, 0⟩, ⟨10, 10, 12, 5, 10, 0⟩, ⟨11, 10, 12, 5, 10, 0⟩,
   ⟨12, 10, 12, 5, 10, 0⟩, ⟨13, 10, 12, 5, 10, 0⟩, ⟨14, 10, 12, 5, 10, 0⟩,
   ⟨15, 10, 12, 5, 10, 0⟩, ⟨16, 10, 12, 5, 10, 0⟩, ⟨17, 10, 12, 5, 10, 0⟩,
   ⟨18, 10, 12, 5, 10, 0⟩, ⟨19, 10, 12, 5, 10, 0⟩, ⟨100, 10, 10, 4, 10, 0⟩,
   ⟨21, 10, 12, 6, 10, 0⟩, ⟨22, 10, 12, 5, 10, 0⟩, ⟨23, 10, 12, 5, 13, 0⟩,
   ⟨24, 10, 12, 5, 10, 0⟩, ⟨25, 10, 12, 5, 10, 0⟩]

/-- The single block `detectOrderBlocks` finds in `c1data`. -/
def c1block : OrderBlock := ⟨.bullish, 10, 4, 100, true, 225⟩

/-- Claim C1, counterexample: in `c1data` the bullish block originates at
    bar 20 (the only loop index; its date is the block's start time and its
    low is the block's bottom), no bar strictly after bar 20 breaches the
    bottom, yet the block comes back flagged mitigated — the date-keyed
    `findIndex` lands on bar 5, which shares bar 20's date, so the breach
    scan starts at bar 6 and bar 6's low counts. -/
theorem detectOrderBlocks_mitigated_cex :
    detectOrderBlocks c1data = some [c1block] ∧
    c1block.isMitigated = true ∧
    (c1data.get? 20).map OHLC.date = some c1block.startTime ∧
    (c1data.get? 20).map OHLC.low = some c1block.bottom ∧
    (c1data.drop 21).any (breachB c1block) = false := by
  have h1 : c1data.get? 20 = some ⟨100, 10, 10, 4, 10, 0⟩ := rfl
  have h2 : c1data.get? (20 - 1) = some ⟨19, 10, 12, 5, 10, 0⟩ := rfl
  have h3 : c1data.get? (20 + 1) = some ⟨21, 10, 12, 6, 10, 0⟩ := rfl
  have h4 : c1data.get? (20 + 3) = some ⟨23, 10, 12, 5, 13, 0⟩ := rfl
  have hcand : obCandidates c1data 20 =
      [⟨.bullish, Max.max 10 10, 4, 100, false, (13 - 4) / 4 * 100⟩] := by
    rw [obCandidates_of_get? h1 h2 h3 h4]
    rw [if_pos (by norm_num), if_neg ?hneg, List.append_nil]
    case hneg =>
      intro hcon
      have := hcon.1
      norm_num at this
  have hlen : c1data.length = 26 := rfl
  have hraw : rawOrderBlocks c1data =
      [⟨.bullish, Max.max 10 10, 4, 100, false, (13 - 4) / 4 * 100⟩] := by
    unfold rawOrderBlocks
    rw [hlen]
    rw [show (List.range 26).filter
        (fun i => decide (20 ≤ i) && decide (i + 5 < 26)) = [20] from by
      decide]
    rw [List.flatMap_cons, List.flatMap_nil, List.append_nil, hcand]
  have hms : mitigationStart c1data
      ⟨.bullish, Max.max 10 10, 4, 100, false, (13 - 4) / 4 * 100⟩ = 6 := rfl
  have hmf : mitigatedFlag c1data
      ⟨.bullish, Max.max 10 10, 4, 100, false, (13 - 4) / 4 * 100⟩ = true := by
    unfold mitigatedFlag
    rw [hms]
    decide
  have hdet : detectOrderBlocks c1data = some [c1block] := by
    unfold detectOrderBlocks
    rw [if_neg (by decide : ¬(c1data.isEmpty = true))]
    rw [hraw, List.map_cons, List.map_nil, hmf]
    norm_num [c1block]
  refine ⟨hdet, rfl, rfl, rfl, by decide⟩

/-- A 26-bar series with pairwise-distinct dates whose bullish block at
    bar 20 is breached by bar 22. -/
def c1udata : List OHLC :=
  [⟨0, 10, 12, 5, 10, 0⟩, ⟨1, 10, 12, 5, 10, 0⟩, ⟨2, 10, 12, 5, 10, 0⟩,
   ⟨3, 10, 12, 5, 10, 0⟩, ⟨4, 10, 12, 5, 10, 0⟩, ⟨5, 10, 12, 5, 10, 0⟩,
   ⟨6, 10, 12, 3, 10, 0⟩, ⟨7, 10, 12, 5, 10, 0⟩, ⟨8, 10, 12, 5, 10, 0⟩,
   ⟨9, 10, 12, 5, 10, 0⟩, ⟨10, 10, 12, 5, 10, 0⟩, ⟨11, 10, 12, 5, 10, 0⟩,
   ⟨12, 10, 12, 5, 10, 0⟩, ⟨13, 10, 12, 5, 10, 0⟩, ⟨14, 10, 12, 5, 10, 0⟩,
   ⟨15, 10, 12, 5, 10, 0⟩, ⟨16, 10, 12, 5, 10, 0⟩, ⟨17, 10, 12, 5, 10, 0⟩,
   ⟨18, 10, 12, 5, 10, 0⟩, ⟨19, 10, 12, 5, 10, 0⟩, ⟨100, 10, 10, 4, 10, 0⟩,
   ⟨21, 10, 12, 6, 10, 0⟩, ⟨22, 10, 12, 3, 10, 0⟩, ⟨23, 10, 12, 5, 13, 0⟩,
   ⟨24, 10, 12, 5, 10, 0⟩, ⟨25, 10, 12, 5, 10, 0⟩]

theorem c1udata_detect : detectOrderBlocks c1udata = some [c1block] := by
  have h1 : c1udata.get? 20 = some ⟨100, 10, 10, 4, 10, 0⟩ := rfl
  have h2 : c1udata.get? (20 - 1) = some ⟨19, 10, 12, 5, 10, 0⟩ := rfl
  have h3 : c1udata.get? (20 + 1) = some ⟨21, 10, 12, 6, 10, 0⟩ := rfl
  have h4 : c1udata.get? (20 + 3) = some ⟨23, 10, 12, 5, 13, 0⟩ := rfl
  have hcand : obCandidates c1udata 20 =
      [⟨.bullish, Max.max 10 10, 4, 100, false, (13 - 4) / 4 * 100⟩] := by
    rw [obCandidates_of_get? h1 h2 h3 h4]
    rw [if_pos (by norm_num), if_neg ?hneg, List.append_nil]
    case hneg =>
      intro hcon
      have := hcon.1
      norm_num at this
  have hlen : c1udata.length = 26 := rfl
  have hraw : rawOrderBlocks c1udata =
      [⟨.bullish, Max.max 10 10, 4, 100, false, (13 - 4) / 4 * 100⟩] := by
    unfold rawOrderBlocks
    rw [hlen]
    rw [show (List.range 26).filter
        (fun i => decide (20 ≤ i) && decide (i + 5 < 26)) = [20] from by
      decide]
    rw [List.flatMap_cons, List.flatMap_nil, List.append_nil, hcand]
  have hms : mitigationStart c1udata
      ⟨.bullish, Max.max 10 10, 4, 100, false, (13 - 4) / 4 * 100⟩ = 21 := rfl
  have hmf : mitigatedFlag c1udata
      ⟨.bullish, Max.max 10 10, 4, 100, false, (13 - 4) / 4 * 100⟩ = true := by
    unfold mitigatedFlag
    rw [hms]
    decide
  unfold detectOrderBlocks
  rw [if_neg (by decide : ¬(c1udata.isEmpty = true))]
  rw [hraw, List.map_cons, List.map_nil, hmf]
  norm_num [c1block]

/-- Claim C1, witness for the amended statement: on the distinct-date
    series the equivalence, applied at the block's origin bar 20, certifies
    the mitigation flag from the breach at bar 22. -/
theorem detectOrderBlocks_mitigation_witness :
    detectOrderBlocks c1udata = some [c1block] ∧
    c1block.isMitigated = true := by
  have hiff := detectOrderBlocks_mitigation.1 c1udata (by decide) [c1block]
    c1udata_detect c1block (List.mem_singleton_self _) 20
    ⟨100, 10, 10, 4, 10, 0⟩ rfl rfl
  exact ⟨c1udata_detect,
    hiff.mpr ⟨22, ⟨22, 10, 12, 3, 10, 0⟩, by omega, rfl, by decide⟩⟩

/-- Claim C9, witness: the block found in the distinct-date series has
    strength 225, above 1.5. -/
theorem detectOrderBlocks_strength_witness :
    (3/2 : ℚ) < c1block.strength := by
  exact detectOrderBlocks_strength c1udata (by decide) [c1block]
    c1udata_detect c1block (List.mem_singleton_self _)
